import Mathlib

/-!
Verification of the Pragotron minute-clock controller core.

This file gives a shallow embedding of the time-reconciliation / catch-up
engine of the controller and proves the behavioural properties claimed of it.
The embedded functions mirror, statement by statement:

* `PulseManager::triggerPulse` / `PulseManager::begin`   (PulseManager.cpp)
* `SystemManager::tryStartCatchUp`, `startCatchUp`, `tickCatchUp`,
  `checkMinuteChange`, the resync branch of `SystemManager::loop`, the DST
  guard of `SystemManager::begin`, and `diffForwardMinutes` (SystemManager.cpp/.h)
* `StateManager::loadLastKnownClockTime` / `parseLine`   (StateManager.cpp)
* `RTCManager::syncWithNtp` / the sentinel of `getNtpTime` (RTCManager.cpp)

Conventions of the embedding:

* C++ `%` on `int` is truncated-division remainder, modelled by `Int.tmod`.
* `millis()` timestamps are `uint32_t`; all stored timestamps are kept
  reduced modulo `U32 = 2^32` and the wrap-around subtraction `now - last`
  is `sub32`.
* Hardware effects (GPIO writes, SD writes, log lines) are modelled by the
  data the code hands to them: the emitted pulse polarity, the minute value
  written to `state.txt` (`persisted`), and a flag for `logger->error`.
* `DateTime` snapshots delivered by the environment (system local time or
  the DS1307) are explicit inputs of each step function.
-/

namespace Pragotron

/-- `2^32`, the modulus of `uint32_t` / `millis()` arithmetic. -/
def U32 : Nat := 4294967296

/-- `uint32_t` wrap-around subtraction `a - b` (both operands reduced mod `U32`). -/
def sub32 (a b : Nat) : Nat := (a % U32 + U32 - b % U32) % U32

/-- Coil drive polarity of one pulse (the H-bridge direction). -/
inductive Polarity : Type
  | A : Polarity
  | B : Polarity
deriving DecidableEq, Repr

/-- An RTClib `DateTime` as the engine sees it: calendar fields only. -/
structure DateTime where
  year : Int
  month : Int
  day : Int
  hour : Int
  minute : Int
  second : Int
deriving DecidableEq, Repr

/-- `SystemManager::minutesOfDay`: `dt.hour() * 60 + dt.minute()`. -/
def minutesOfDay (dt : DateTime) : Int := dt.hour * 60 + dt.minute

/-- The sentinel `DateTime(2000, 1, 1, 0, 0, 0)` returned by
`RTCManager::getNtpTime` when no NTP time could be acquired. -/
def sentinelTime : DateTime := ⟨2000, 1, 1, 0, 0, 0⟩

/-- `SystemManager::diffForwardMinutes`:
`((toMinutes - fromMinutes) % 1440 + 1440) % 1440` with C++ truncated `%`. -/
def diffForwardMinutes (fromMinutes toMinutes : Int) : Int :=
  ((toMinutes - fromMinutes).tmod 1440 + 1440).tmod 1440

/-! ## PulseManager -/

/-- The state of `PulseManager` (pin numbers omitted; GPIO is modelled by the
returned polarity). Timing fields are the nonnegative millisecond values the
config delivers. -/
structure PulseState where
  durationMs : Nat
  pauseMs : Nat
  lastWasA : Bool
  lastTrigMs : Nat
  minGapMs : Nat
deriving DecidableEq, Repr

/-- `PulseManager::begin`: coast the bridge and reset the alternation so the
first pulse is `A` (`lastWasA = false`, `lastTrigMs = 0`). -/
def pulseBegin (p : PulseState) : PulseState :=
  { p with lastWasA := false, lastTrigMs := 0 }

/-- The guard gap of `PulseManager::triggerPulse`:
`max<uint32_t>(minGapMs, (uint32_t)(durationMs + pauseMs + 50))`. -/
def requiredGap (p : PulseState) : Nat :=
  max p.minGapMs ((p.durationMs + p.pauseMs + 50) % U32)

/-- `PulseManager::triggerPulse`. `nowMs` is the `millis()` read on entry and
`doneMs` the `millis()` read after the pulse completes. Result: the returned
`bool`, the polarity driven onto the bridge (if any), and the new state. -/
def triggerPulse (p : PulseState) (allowBurst : Bool) (nowMs doneMs : Nat) :
    Bool × Option Polarity × PulseState :=
  if !allowBurst ∧ sub32 nowMs p.lastTrigMs < requiredGap p then
    (false, none, p)
  else
    (true, some (if p.lastWasA then Polarity.B else Polarity.A),
     { p with lastWasA := !p.lastWasA, lastTrigMs := doneMs % U32 })

/-! ## Configuration (the fields the engine reads) -/

/-- The `ConfigManager` fields consumed by the embedded functions. -/
structure Config where
  impulseDelayMs : Nat
  resyncRtcIfDiffSeconds : Nat
  maxCatchupMinutes : Int
deriving DecidableEq, Repr

/-! ## SystemManager -/

/-- The `SystemManager` fields driven by the embedded functions, plus the
owned `PulseManager` state and the last minute value written to `state.txt`
(`persisted`, the durable shadow of `lastImpulseMinutes`). -/
structure EngineState where
  lastImpulseMinutes : Int
  catchupActive : Bool
  catchupRemaining : Int
  catchupLastPulseMs : Nat
  catchupIntervalMs : Nat
  persisted : Int
  pulse : PulseState
deriving DecidableEq, Repr

/-- `SystemManager::startCatchUp`: arm the session
(`remaining := diffMinutes`, `interval := impulseDelayMs + 150 + 50` as
`uint32_t`, `lastPulse := 0`, `active := true`). -/
def startCatchUp (cfg : Config) (diffMinutes : Int) (s : EngineState) : EngineState :=
  { s with catchupRemaining := diffMinutes,
           catchupIntervalMs := (cfg.impulseDelayMs % U32 + 150 + 50) % U32,
           catchupLastPulseMs := 0,
           catchupActive := true }

/-- `SystemManager::tryStartCatchUp`, the central gate used by the boot path
(`doCatchUpIfNeeded`) and the NTP-resync path. `nowMin` is the minute-of-day
of the `now()` snapshot it takes. The `Bool` result records whether the
over-cap `logger->error` line was emitted. -/
def tryStartCatchUp (cfg : Config) (nowMin : Int) (s : EngineState) :
    EngineState × Bool :=
  if s.catchupActive then (s, false)
  else
    let diff := diffForwardMinutes s.lastImpulseMinutes nowMin
    if diff = 0 then (s, false)
    else if cfg.maxCatchupMinutes < diff then (s, true)
    else (startCatchUp cfg diff s, false)

/-- `SystemManager::tickCatchUp`. `nowMs`/`doneMs` are the two `millis()`
reads; `resampleMin` is the minute-of-day of the fresh `now()` sample taken
when the session finishes. Result: new state and the number of pulses
emitted by this call (0 or 1). -/
def tickCatchUp (nowMs doneMs : Nat) (resampleMin : Int) (s : EngineState) :
    EngineState × Nat :=
  if !s.catchupActive then (s, 0)
  else if s.catchupLastPulseMs = 0 ∨ s.catchupIntervalMs ≤ sub32 nowMs s.catchupLastPulseMs then
    match triggerPulse s.pulse true nowMs doneMs with
    | (false, _, _) => (s, 0)
    | (true, _, p1) =>
      let lim := (s.lastImpulseMinutes + 1).tmod 1440
      let rem := s.catchupRemaining - 1
      if rem ≤ 0 then
        ({ s with pulse := p1, catchupLastPulseMs := doneMs % U32,
                  lastImpulseMinutes := resampleMin, persisted := resampleMin,
                  catchupRemaining := rem, catchupActive := false }, 1)
      else
        ({ s with pulse := p1, catchupLastPulseMs := doneMs % U32,
                  lastImpulseMinutes := lim, persisted := lim,
                  catchupRemaining := rem }, 1)
  else (s, 0)

/-- `SystemManager::checkMinuteChange`, the regular minute tick (disabled
while a catch-up session is active). `nowMin` is the minute-of-day of the
`now()` snapshot. Result: new state and pulses emitted (0 or 1). -/
def checkMinuteChange (nowMin : Int) (nowMs doneMs : Nat) (s : EngineState) :
    EngineState × Nat :=
  if s.catchupActive then (s, 0)
  else if nowMin ≠ s.lastImpulseMinutes then
    match triggerPulse s.pulse false nowMs doneMs with
    | (false, _, _) => (s, 0)
    | (true, _, p1) =>
      ({ s with pulse := p1, lastImpulseMinutes := nowMin, persisted := nowMin }, 1)
  else (s, 0)

/-- One iteration of `SystemManager::loop` on a tick where the periodic NTP
resync is not due: `checkMinuteChange()` followed by `tickCatchUp()`. -/
def loopTick (nowMin : Int) (nowMs doneMs : Nat) (resampleMin : Int)
    (s : EngineState) : EngineState × Nat :=
  let r1 := checkMinuteChange nowMin nowMs doneMs s
  let r2 := tickCatchUp nowMs doneMs resampleMin r1.1
  (r2.1, r1.2 + r2.2)

/-- The drift-handling tail of `SystemManager::loop` after `syncWithNtp`
returned: `dstFlip` is `ltBefore.tm_isdst != ltAfter.tm_isdst`, `sysDelta`
the absolute system-clock correction in seconds, and `afterMin` the
minute-of-day of the post-sync local time. The `Bool` result is the over-cap
error flag of `tryStartCatchUp`. -/
def loopResync (cfg : Config) (dstFlip : Bool) (sysDelta : Nat) (afterMin : Int)
    (s : EngineState) : EngineState × Bool :=
  if sysDelta = 0 then (s, false)
  else if dstFlip ∧ 55 * 60 ≤ sysDelta ∧ sysDelta ≤ 65 * 60 then
    ({ s with lastImpulseMinutes := afterMin, persisted := afterMin }, false)
  else if cfg.resyncRtcIfDiffSeconds ≤ sysDelta then
    tryStartCatchUp cfg afterMin s
  else (s, false)

/-- The DST guard of `SystemManager::begin` (align without catch-up only on
a real DST flip of about one hour). -/
def beginDstGuard (realDstFlip : Bool) (sysDelta : Nat) (nowMin : Int)
    (s : EngineState) : EngineState :=
  if realDstFlip ∧ 55 * 60 ≤ sysDelta ∧ sysDelta ≤ 65 * 60 then
    { s with lastImpulseMinutes := nowMin, persisted := nowMin }
  else s

/-! ## Iterated runs -/

/-- Fold `triggerPulse` over a list of calls `(allowBurst, nowMs, doneMs)`,
collecting the polarities actually driven onto the bridge. -/
def runPulses (p : PulseState) : List (Bool × Nat × Nat) → List Polarity
  | [] => []
  | (burst, nowMs, doneMs) :: rest =>
    match triggerPulse p burst nowMs doneMs with
    | (_, some pol, p1) => pol :: runPulses p1 rest
    | (_, none, p1) => runPulses p1 rest

/-- The strictly alternating polarity sequence of length `n` that follows a
state whose last emitted polarity was `A` iff `w`. -/
def altFrom : Bool → Nat → List Polarity
  | _, 0 => []
  | w, n + 1 => (if w then Polarity.B else Polarity.A) :: altFrom (!w) n

/-- Drive `tickCatchUp` `k` times, calling it exactly when the next pulse
falls due (at `catchupLastPulseMs + catchupIntervalMs`, the pulse completing
within the same millisecond). Result: final state and total pulses emitted. -/
def runCatchUp (resampleMin : Int) : Nat → EngineState → EngineState × Nat
  | 0, s => (s, 0)
  | Nat.succ k, s =>
      let nowMs := (s.catchupLastPulseMs + s.catchupIntervalMs) % U32
      let r1 := tickCatchUp nowMs nowMs resampleMin s
      let r2 := runCatchUp resampleMin k r1.1
      (r2.1, r1.2 + r2.2)

/-! ## StateManager -/

/-- The lexical shape of the single line of `state.txt`, as dispatched by the
two `sscanf` patterns of `StateManager::parseLine`: a full
`"YYYY-MM-DD HH:MM"` match, a bare `"HH:MM"` match, or neither. -/
inductive StateLine : Type
  | dateTimeForm (y M d h m : Int) : StateLine
  | timeForm (h m : Int) : StateLine
  | unmatched : StateLine
deriving DecidableEq, Repr

/-- Whether `StateManager::parseLine` accepts the line (some pattern matched
and its hour/minute fields are in range). -/
def lineOk : StateLine → Bool
  | .dateTimeForm _ _ _ h m => decide (0 ≤ h ∧ h < 24 ∧ 0 ≤ m ∧ m < 60)
  | .timeForm h m => decide (0 ≤ h ∧ h < 24 ∧ 0 ≤ m ∧ m < 60)
  | .unmatched => false

/-- `StateManager::parseLine`. Result: the returned `DateTime` and the
`HH:MM` content rewritten into `state.txt`, if the reset path ran. -/
def parseLine : StateLine → DateTime × Option (Int × Int)
  | .dateTimeForm _ _ _ h m =>
      if 0 ≤ h ∧ h < 24 ∧ 0 ≤ m ∧ m < 60 then (⟨2000, 1, 1, h, m, 0⟩, none)
      else (⟨2000, 1, 1, 0, 0, 0⟩, some (0, 0))
  | .timeForm h m =>
      if 0 ≤ h ∧ h < 24 ∧ 0 ≤ m ∧ m < 60 then (⟨2000, 1, 1, h, m, 0⟩, none)
      else (⟨2000, 1, 1, 0, 0, 0⟩, some (0, 0))
  | .unmatched => (⟨2000, 1, 1, 0, 0, 0⟩, some (0, 0))

/-- `StateManager::loadLastKnownClockTime`. Environment inputs: whether
`state.txt` exists, whether it could be opened for reading, the current
local system time `sysH:sysM`, and the (lexed) stored line. Result: the
returned `DateTime` and the `HH:MM` content written to the file, if any. -/
def loadLastKnownClockTime (fileExists canOpenRead : Bool) (sysH sysM : Int)
    (line : StateLine) : DateTime × Option (Int × Int) :=
  if !fileExists then (⟨2000, 1, 1, sysH, sysM, 0⟩, some (sysH, sysM))
  else if !canOpenRead then (⟨2000, 1, 1, 0, 0, 0⟩, some (0, 0))
  else parseLine line

/-! ## RTCManager -/

/-- `RTCManager::syncWithNtp`. `ntp` is the `DateTime` produced by
`getNtpTime` (the sentinel on failure), `driftSec` the absolute
`|ntp.unixtime - rtc.unixtime|`, computed opaquely by the environment.
Result: the returned `bool` and the value written to the RTC, if any. The
function never touches the system clock. -/
def syncWithNtp (ntp : DateTime) (driftSec : Int) (maxAllowedDiffSec : Int) :
    Bool × Option DateTime :=
  if ntp.year < 2020 then (false, none)
  else if maxAllowedDiffSec < driftSec then (true, some ntp)
  else (true, none)

/-! ## Concrete states used by witnesses and counterexamples -/

/-- A `PulseManager` state right after `begin()` with the default timing the
boot path configures (`impulseDelayMs = 500` would give gap 700; here the
header defaults 200/150/600 are used). -/
def stdPulseState : PulseState :=
  { durationMs := 200, pauseMs := 150, lastWasA := false, lastTrigMs := 0, minGapMs := 600 }

/-- An idle engine at physical minute 0, no session, nothing pending. -/
def cexIdleState : EngineState :=
  { lastImpulseMinutes := 0, catchupActive := false, catchupRemaining := 0,
    catchupLastPulseMs := 0, catchupIntervalMs := 0, persisted := 0,
    pulse := stdPulseState }

/-- The `/config.json` defaults of `ConfigManager`. -/
def cfgDefault : Config :=
  { impulseDelayMs := 500, resyncRtcIfDiffSeconds := 60, maxCatchupMinutes := 180 }

/-- The engine right after `startCatchUp(7, ...)` from `cexIdleState` under
`cfgDefault` (session of 7 owed pulses, interval 700 ms). -/
def catchupSessionState : EngineState :=
  { lastImpulseMinutes := 0, catchupActive := true, catchupRemaining := 7,
    catchupLastPulseMs := 0, catchupIntervalMs := 700, persisted := 0,
    pulse := stdPulseState }

/-! ## Arithmetic helper lemmas -/

/-- Truncated remainder of a negated dividend. -/
theorem neg_tmod_eq (a b : Int) : (-a).tmod b = -(a.tmod b) := by
  rw [Int.tmod_def, Int.tmod_def, Int.neg_tdiv]
  ring

/-- A dividend strictly inside `(-n, n)` is its own truncated remainder. -/
theorem tmod_eq_self_of_abs_lt {x n : Int} (h1 : -n < x) (h2 : x < n) :
    x.tmod n = x := by
  rcases le_or_lt 0 x with hx | hx
  · exact Int.tmod_eq_of_lt hx h2
  · have h3 : (-x).tmod n = -x := Int.tmod_eq_of_lt (by omega) (by omega)
    have h4 : (-x).tmod n = -(x.tmod n) := neg_tmod_eq x n
    omega

/-- On in-range inputs `diffForwardMinutes` is the Euclidean forward
difference `(b - a + 1440) % 1440`. -/
theorem diffForwardMinutes_eq_emod {a b : Int} (ha0 : 0 ≤ a) (ha : a ≤ 1439)
    (hb0 : 0 ≤ b) (hb : b ≤ 1439) :
    diffForwardMinutes a b = (b - a + 1440) % 1440 := by
  unfold diffForwardMinutes
  have h1 : (b - a).tmod 1440 = b - a :=
    tmod_eq_self_of_abs_lt (by omega) (by omega)
  rw [h1, Int.tmod_eq_emod (by omega) (by omega)]

/-- `diffForwardMinutes a a = 0`, with no range assumptions. -/
theorem diffForwardMinutes_self (a : Int) : diffForwardMinutes a a = 0 := by
  unfold diffForwardMinutes
  simp [Int.tmod_self]

/-- `sub32` of a timestamp advanced by `i` milliseconds recovers `i`. -/
theorem sub32_add_interval (l i : Nat) (hl : l < U32) (hi : i < U32) :
    sub32 ((l + i) % U32) l = i := by
  simp only [sub32, U32] at *
  omega

/-! ## Claim theorems -/

/-- C9: for all `a, b` in `[0, 1439]`, `diffForwardMinutes a b` equals
`(b - a + 1440) mod 1440`, its value lies in `[0, 1439]`, and
`diffForwardMinutes a a = 0`. -/
theorem diffForwardMinutes_spec (a b : Int) (ha0 : 0 ≤ a) (ha : a ≤ 1439)
    (hb0 : 0 ≤ b) (hb : b ≤ 1439) :
    diffForwardMinutes a b = (b - a + 1440) % 1440 ∧
    0 ≤ diffForwardMinutes a b ∧ diffForwardMinutes a b ≤ 1439 ∧
    diffForwardMinutes a a = 0 := by
  have h := diffForwardMinutes_eq_emod ha0 ha hb0 hb
  refine ⟨h, ?_, ?_, diffForwardMinutes_self a⟩
  · rw [h]
    exact Int.emod_nonneg _ (by norm_num)
  · rw [h]
    have := Int.emod_lt_of_pos (b - a + 1440) (show (0:Int) < 1440 by norm_num)
    omega

theorem diffForwardMinutes_spec_witness :
    diffForwardMinutes 1435 5 = (5 - 1435 + 1440) % 1440 ∧
    0 ≤ diffForwardMinutes 1435 5 ∧ diffForwardMinutes 1435 5 ≤ 1439 ∧
    diffForwardMinutes 1435 1435 = 0 :=
  diffForwardMinutes_spec 1435 5 (by norm_num) (by norm_num) (by norm_num) (by norm_num)

/-- C5: a `triggerPulse(allowBurst = false)` call made less than
`requiredGap = max(minGapMs, durationMs + pauseMs + 50)` milliseconds after
the last accepted pulse returns `false` and has no side effect: no polarity
is driven and the whole pulse state (alternation flag and last-pulse
timestamp included) is unchanged. -/
theorem triggerPulse_guard_rejects (p : PulseState) (nowMs doneMs : Nat)
    (h : sub32 nowMs p.lastTrigMs < requiredGap p) :
    triggerPulse p false nowMs doneMs = (false, none, p) := by
  simp [triggerPulse, h]

theorem triggerPulse_guard_rejects_witness :
    sub32 1200 1000 < requiredGap ⟨200, 150, true, 1000, 600⟩ ∧
    triggerPulse ⟨200, 150, true, 1000, 600⟩ false 1200 1400 =
      (false, none, ⟨200, 150, true, 1000, 600⟩) :=
  ⟨by decide, triggerPulse_guard_rejects ⟨200, 150, true, 1000, 600⟩ 1200 1400 (by decide)⟩

/-- C10: while a catch-up session is active, `tryStartCatchUp` returns
without touching the engine state (session fields and `PhysicalMinute`
included) and logs no error, and `checkMinuteChange` is disabled (state
unchanged, zero pulses emitted) — so pulses can come only from
`tickCatchUp`. -/
theorem active_session_locks_out (cfg : Config) (nowMin : Int)
    (nowMs doneMs : Nat) (s : EngineState) (h : s.catchupActive = true) :
    tryStartCatchUp cfg nowMin s = (s, false) ∧
    checkMinuteChange nowMin nowMs doneMs s = (s, 0) := by
  constructor
  · simp [tryStartCatchUp, h]
  · simp [checkMinuteChange, h]

theorem active_session_locks_out_witness :
    tryStartCatchUp cfgDefault 300 catchupSessionState = (catchupSessionState, false) ∧
    checkMinuteChange 300 5000 5350 catchupSessionState = (catchupSessionState, 0) :=
  active_session_locks_out cfgDefault 300 5000 5350 catchupSessionState (by decide)

/-- C3: when the forward difference from `PhysicalMinute` to the current
minute exceeds the (nonnegative) `maxCatchupMinutes` cap, `tryStartCatchUp`
— the shared gate of the boot and resync paths — refuses: it logs an error,
emits no pulse, starts no session, and leaves the whole engine state
(`PhysicalMinute` and its persisted copy included) unchanged. -/
theorem catchup_over_cap_refused (cfg : Config) (nowMin : Int) (s : EngineState)
    (hidle : s.catchupActive = false) (hcap : 0 ≤ cfg.maxCatchupMinutes)
    (hover : cfg.maxCatchupMinutes < diffForwardMinutes s.lastImpulseMinutes nowMin) :
    tryStartCatchUp cfg nowMin s = (s, true) := by
  have hne : diffForwardMinutes s.lastImpulseMinutes nowMin ≠ 0 := by omega
  simp [tryStartCatchUp, hidle, hne, hover]

theorem catchup_over_cap_refused_witness :
    cexIdleState.catchupActive = false ∧
    cfgDefault.maxCatchupMinutes <
      diffForwardMinutes cexIdleState.lastImpulseMinutes 181 ∧
    tryStartCatchUp cfgDefault 181 cexIdleState = (cexIdleState, true) :=
  ⟨by decide, by decide,
   catchup_over_cap_refused cfgDefault 181 cexIdleState (by decide) (by decide) (by decide)⟩

/-- C7: when the time source is unavailable the `getNtpTime` sentinel is
inert: its minute-of-day is 0; `syncWithNtp` rejects it outright (returns
`false`, adjusts nothing, so no resync-driven catch-up can arise from it);
a sentinel-vs-sentinel minute comparison makes `checkMinuteChange` a strict
no-op with zero pulses; and `tryStartCatchUp` on a sentinel-vs-sentinel
state sees forward difference 0 and starts no session — in particular no
false 1440-minute catch-up. -/
theorem sentinel_time_is_inert :
    minutesOfDay sentinelTime = 0 ∧
    (∀ driftSec maxDiff : Int,
        syncWithNtp sentinelTime driftSec maxDiff = (false, none)) ∧
    (∀ (nowMs doneMs : Nat) (s : EngineState),
        s.lastImpulseMinutes = minutesOfDay sentinelTime →
        checkMinuteChange (minutesOfDay sentinelTime) nowMs doneMs s = (s, 0)) ∧
    (∀ (cfg : Config) (s : EngineState),
        s.catchupActive = false →
        s.lastImpulseMinutes = minutesOfDay sentinelTime →
        tryStartCatchUp cfg (minutesOfDay sentinelTime) s = (s, false)) := by
  refine ⟨by decide, ?_, ?_, ?_⟩
  · intro driftSec maxDiff
    simp [syncWithNtp, sentinelTime]
  · intro nowMs doneMs s h
    by_cases hc : s.catchupActive
    · simp [checkMinuteChange, hc]
    · simp [checkMinuteChange, hc, h]
  · intro cfg s hact h
    simp [tryStartCatchUp, hact, h, diffForwardMinutes_self]

theorem sentinel_time_is_inert_witness :
    syncWithNtp sentinelTime 5000 60 = (false, none) ∧
    checkMinuteChange (minutesOfDay sentinelTime) 0 0 cexIdleState = (cexIdleState, 0) ∧
    tryStartCatchUp cfgDefault (minutesOfDay sentinelTime) cexIdleState = (cexIdleState, false) :=
  ⟨sentinel_time_is_inert.2.1 5000 60,
   sentinel_time_is_inert.2.2.1 0 0 cexIdleState (by decide),
   sentinel_time_is_inert.2.2.2 cfgDefault cexIdleState (by decide) (by decide)⟩

/-- C8 counterexample: with `state.txt` missing and the local system time at
12:34, `loadLastKnownClockTime` creates the file with "12:34" and returns
12:34 — not the 00:00 default the claim requires for the no-prior-value
case. -/
theorem load_missing_file_uses_current_time :
    (loadLastKnownClockTime false true 12 34 StateLine.unmatched).1 =
      (⟨2000, 1, 1, 12, 34, 0⟩ : DateTime) ∧
    (loadLastKnownClockTime false true 12 34 StateLine.unmatched).2 = some (12, 34) ∧
    (loadLastKnownClockTime false true 12 34 StateLine.unmatched).1 ≠
      (⟨2000, 1, 1, 0, 0, 0⟩ : DateTime) := by
  decide

/-- C8 amended: when the stored line is unparsable, or the existing file
cannot be opened for reading, `loadLastKnownClockTime` returns 00:00 and
writes "00:00" back; when no prior file exists it instead creates the file
with the current local system time and returns that value. -/
theorem load_failure_behaviour (canOpenRead : Bool) (sysH sysM : Int)
    (line : StateLine) :
    (lineOk line = false →
      loadLastKnownClockTime true true sysH sysM line =
        (⟨2000, 1, 1, 0, 0, 0⟩, some (0, 0))) ∧
    loadLastKnownClockTime true false sysH sysM line =
      (⟨2000, 1, 1, 0, 0, 0⟩, some (0, 0)) ∧
    loadLastKnownClockTime false canOpenRead sysH sysM line =
      (⟨2000, 1, 1, sysH, sysM, 0⟩, some (sysH, sysM)) := by
  refine ⟨?_, by simp [loadLastKnownClockTime], by simp [loadLastKnownClockTime]⟩
  intro hbad
  cases line with
  | dateTimeForm y M d h m =>
    simp only [lineOk, decide_eq_false_iff_not] at hbad
    simp [loadLastKnownClockTime, parseLine, hbad]
  | timeForm h m =>
    simp only [lineOk, decide_eq_false_iff_not] at hbad
    simp [loadLastKnownClockTime, parseLine, hbad]
  | unmatched =>
    simp [loadLastKnownClockTime, parseLine]

theorem load_failure_behaviour_witness :
    lineOk StateLine.unmatched = false ∧
    loadLastKnownClockTime true true 12 34 StateLine.unmatched =
      (⟨2000, 1, 1, 0, 0, 0⟩, some (0, 0)) ∧
    loadLastKnownClockTime false true 12 34 StateLine.unmatched =
      (⟨2000, 1, 1, 12, 34, 0⟩, some (12, 34)) :=
  ⟨by decide,
   (load_failure_behaviour true 12 34 StateLine.unmatched).1 (by decide),
   (load_failure_behaviour true 12 34 StateLine.unmatched).2.2⟩

/-- C2 counterexample: a resync reporting a DST-flag flip together with a
7200 s correction (outside the ~1 h band) does not realign: with the
default configuration the engine starts a 120-pulse catch-up session and
leaves `PhysicalMinute` and its persisted copy at 0 instead of snapping
them to the post-sync minute 120. -/
theorem dst_flip_outside_band_not_aligned :
    (loopResync cfgDefault true 7200 120 cexIdleState).1.catchupActive = true ∧
    (loopResync cfgDefault true 7200 120 cexIdleState).1.lastImpulseMinutes ≠ 120 ∧
    (loopResync cfgDefault true 7200 120 cexIdleState).1.persisted ≠ 120 := by
  decide

/-- C2 amended: whenever a forced resync reports a DST-flag flip AND the
correction magnitude lies in the ~1 h band (3300..3900 s), the engine —
in the periodic-resync path and in the boot path alike — immediately sets
`PhysicalMinute = now().minuteOfDay` and persists it in a single step,
emitting zero pulses and starting no catch-up session (every other state
field, the pulse driver included, is untouched), regardless of the
computed forward difference. -/
theorem dst_flip_in_band_aligns (cfg : Config) (sysDelta : Nat) (afterMin : Int)
    (s : EngineState) (h1 : 55 * 60 ≤ sysDelta) (h2 : sysDelta ≤ 65 * 60) :
    loopResync cfg true sysDelta afterMin s =
      ({ s with lastImpulseMinutes := afterMin, persisted := afterMin }, false) ∧
    beginDstGuard true sysDelta afterMin s =
      { s with lastImpulseMinutes := afterMin, persisted := afterMin } := by
  have hz : sysDelta ≠ 0 := by omega
  constructor
  · simp [loopResync, hz, h1, h2]
  · simp [beginDstGuard, h1, h2]

theorem dst_flip_in_band_aligns_witness :
    loopResync cfgDefault true 3600 120 cexIdleState =
      ({ cexIdleState with lastImpulseMinutes := 120, persisted := 120 }, false) ∧
    beginDstGuard true 3600 120 cexIdleState =
      { cexIdleState with lastImpulseMinutes := 120, persisted := 120 } :=
  dst_flip_in_band_aligns cfgDefault 3600 120 cexIdleState (by norm_num) (by norm_num)

/-- Accepted pulses always alternate against the stored flag: the trace of
emitted polarities from any state is the alternation keyed by `lastWasA`. -/
theorem runPulses_eq_altFrom (calls : List (Bool × Nat × Nat)) (p : PulseState) :
    runPulses p calls = altFrom p.lastWasA (runPulses p calls).length := by
  induction calls generalizing p with
  | nil => rfl
  | cons c rest ih =>
    obtain ⟨burst, nowMs, doneMs⟩ := c
    by_cases hb : (!burst ∧ sub32 nowMs p.lastTrigMs < requiredGap p)
    · have heq : triggerPulse p burst nowMs doneMs = (false, none, p) := by
        simp [triggerPulse, hb]
      simp only [runPulses, heq]
      exact ih p
    · have heq : triggerPulse p burst nowMs doneMs =
          (true, some (if p.lastWasA then Polarity.B else Polarity.A),
           { p with lastWasA := !p.lastWasA, lastTrigMs := doneMs % U32 }) := by
        unfold triggerPulse
        rw [if_neg hb]
      simp only [runPulses, heq, List.length_cons, altFrom]
      exact congrArg (List.cons _)
        (by simpa using ih { p with lastWasA := !p.lastWasA, lastTrigMs := doneMs % U32 })

/-- C6: after `begin()` the first accepted `triggerPulse` call emits
polarity A and every later accepted call emits the opposite of the
previously emitted one, so the emitted trace is the strict alternation
A, B, A, …; moreover every accepted call returns `true` and flips the
stored polarity, completing at `doneMs`. -/
theorem pulse_alternation (p : PulseState) (calls : List (Bool × Nat × Nat)) :
    runPulses (pulseBegin p) calls
      = altFrom false (runPulses (pulseBegin p) calls).length ∧
    (∀ (q : PulseState) (nowMs doneMs : Nat),
        triggerPulse q true nowMs doneMs =
          (true, some (if q.lastWasA then Polarity.B else Polarity.A),
           { q with lastWasA := !q.lastWasA, lastTrigMs := doneMs % U32 })) := by
  constructor
  · have h := runPulses_eq_altFrom calls (pulseBegin p)
    simpa [pulseBegin] using h
  · intro q nowMs doneMs
    simp [triggerPulse]

/-- `tickCatchUp` is the identity when no session is active. -/
theorem tickCatchUp_inactive (nowMs doneMs : Nat) (r : Int) (s : EngineState)
    (h : s.catchupActive = false) :
    tickCatchUp nowMs doneMs r s = (s, 0) := by
  simp [tickCatchUp, h]

/-- A due catch-up tick with more than one pulse still owed emits exactly
one pulse, advances `PhysicalMinute` by one step modulo 1440, persists it,
decrements `remaining`, and keeps the session active. -/
theorem tickCatchUp_step_mid (nowMs doneMs : Nat) (r : Int) (s : EngineState)
    (hact : s.catchupActive = true)
    (hdue : s.catchupLastPulseMs = 0 ∨
      s.catchupIntervalMs ≤ sub32 nowMs s.catchupLastPulseMs)
    (hrem : 1 < s.catchupRemaining) :
    tickCatchUp nowMs doneMs r s =
      ({ s with pulse := { s.pulse with lastWasA := !s.pulse.lastWasA,
                                         lastTrigMs := doneMs % U32 },
                catchupLastPulseMs := doneMs % U32,
                lastImpulseMinutes := (s.lastImpulseMinutes + 1).tmod 1440,
                persisted := (s.lastImpulseMinutes + 1).tmod 1440,
                catchupRemaining := s.catchupRemaining - 1 }, 1) := by
  have hne : ¬(s.catchupRemaining - 1 ≤ 0) := by omega
  unfold tickCatchUp
  rw [hact]
  simp only [Bool.not_true, Bool.false_eq_true, if_false, if_pos hdue, triggerPulse,
    Bool.not_true, Bool.false_eq_true, false_and, if_neg (by simp : ¬(False ∧ _)),
    if_neg hne]

/-- A due catch-up tick with exactly one pulse owed (or fewer) emits it,
deactivates the session, and snaps `PhysicalMinute` and the persisted copy
to the freshly re-sampled minute `r`. -/
theorem tickCatchUp_step_last (nowMs doneMs : Nat) (r : Int) (s : EngineState)
    (hact : s.catchupActive = true)
    (hdue : s.catchupLastPulseMs = 0 ∨
      s.catchupIntervalMs ≤ sub32 nowMs s.catchupLastPulseMs)
    (hrem : s.catchupRemaining ≤ 1) :
    tickCatchUp nowMs doneMs r s =
      ({ s with pulse := { s.pulse with lastWasA := !s.pulse.lastWasA,
                                         lastTrigMs := doneMs % U32 },
                catchupLastPulseMs := doneMs % U32,
                lastImpulseMinutes := r,
                persisted := r,
                catchupRemaining := s.catchupRemaining - 1,
                catchupActive := false }, 1) := by
  have hle : s.catchupRemaining - 1 ≤ 0 := by omega
  unfold tickCatchUp
  rw [hact]
  simp only [Bool.not_true, Bool.false_eq_true, if_false, if_pos hdue, triggerPulse,
    Bool.not_true, Bool.false_eq_true, false_and, if_neg (by simp : ¬(False ∧ _)),
    if_pos hle]

/-- `runCatchUp` run for `k` steps while more than `k` pulses are owed:
emits exactly `k` pulses, keeps the session active, decrements `remaining`
by `k`, and advances `PhysicalMinute` (persisting each step) by `k` forward
steps modulo 1440. -/
theorem runCatchUp_mid (r : Int) (k : Nat) :
    ∀ s : EngineState, s.catchupActive = true →
      s.catchupLastPulseMs < U32 → s.catchupIntervalMs < U32 →
      0 ≤ s.lastImpulseMinutes → s.lastImpulseMinutes < 1440 →
      (k : Int) < s.catchupRemaining →
      (runCatchUp r k s).2 = k ∧
      (runCatchUp r k s).1.catchupActive = true ∧
      (runCatchUp r k s).1.catchupRemaining = s.catchupRemaining - k ∧
      (runCatchUp r k s).1.lastImpulseMinutes = (s.lastImpulseMinutes + k) % 1440 ∧
      ((runCatchUp r k s).1.persisted =
        if k = 0 then s.persisted else (s.lastImpulseMinutes + k) % 1440) ∧
      (runCatchUp r k s).1.catchupLastPulseMs < U32 ∧
      (runCatchUp r k s).1.catchupIntervalMs = s.catchupIntervalMs := by
  induction k with
  | zero =>
    intro s h1 h2 h3 h4 h5 h6
    have hl : s.lastImpulseMinutes % 1440 = s.lastImpulseMinutes :=
      Int.emod_eq_of_lt h4 h5
    simp [runCatchUp, hl, h1, h2]
  | succ k ih =>
    intro s h1 h2 h3 h4 h5 h6
    have hmm : (s.catchupLastPulseMs + s.catchupIntervalMs) % U32 % U32
        = (s.catchupLastPulseMs + s.catchupIntervalMs) % U32 :=
      Nat.mod_mod_of_dvd _ dvd_rfl
    have hdue : s.catchupLastPulseMs = 0 ∨
        s.catchupIntervalMs ≤
          sub32 ((s.catchupLastPulseMs + s.catchupIntervalMs) % U32) s.catchupLastPulseMs := by
      right
      rw [sub32_add_interval _ _ h2 h3]
    have hrem1 : 1 < s.catchupRemaining := by
      push_cast at h6
      omega
    have hstep := tickCatchUp_step_mid ((s.catchupLastPulseMs + s.catchupIntervalMs) % U32)
      ((s.catchupLastPulseMs + s.catchupIntervalMs) % U32) r s h1 hdue hrem1
    rw [hmm] at hstep
    have htm : (s.lastImpulseMinutes + 1).tmod 1440 = (s.lastImpulseMinutes + 1) % 1440 :=
      Int.tmod_eq_emod (by omega) (by norm_num)
    obtain ⟨s1, hs1⟩ : ∃ s1, tickCatchUp ((s.catchupLastPulseMs + s.catchupIntervalMs) % U32)
        ((s.catchupLastPulseMs + s.catchupIntervalMs) % U32) r s = (s1, 1) := ⟨_, hstep⟩
    have hrec := congrArg Prod.fst (hstep.symm.trans hs1)
    simp only [] at hrec
    have f1 : s1.catchupActive = true := by
      rw [← hrec]
      exact h1
    have f2 : s1.catchupRemaining = s.catchupRemaining - 1 := by
      rw [← hrec]
    have f3 : s1.lastImpulseMinutes = (s.lastImpulseMinutes + 1) % 1440 := by
      rw [← hrec]
      exact htm
    have f4 : s1.persisted = (s.lastImpulseMinutes + 1) % 1440 := by
      rw [← hrec]
      exact htm
    have f5 : s1.catchupLastPulseMs < U32 := by
      rw [← hrec]
      exact Nat.mod_lt _ (by norm_num [U32])
    have f6 : s1.catchupIntervalMs = s.catchupIntervalMs := by
      rw [← hrec]
    have hmod0 : (0:Int) ≤ (s.lastImpulseMinutes + 1) % 1440 :=
      Int.emod_nonneg _ (by norm_num)
    have hmod1 : (s.lastImpulseMinutes + 1) % 1440 < 1440 :=
      Int.emod_lt_of_pos _ (by norm_num)
    have key := ih s1 f1 f5 (f6 ▸ h3) (f3 ▸ hmod0) (f3 ▸ hmod1)
      (by rw [f2]; push_cast at h6 ⊢; omega)
    obtain ⟨k1, k2, k3, k4, k5, k6, k7⟩ := key
    simp only [runCatchUp, hs1]
    refine ⟨by omega, k2, ?_, ?_, ?_, k6, by rw [k7, f6]⟩
    · rw [k3, f2]
      push_cast
      ring
    · rw [k4, f3]
      push_cast
      omega
    · rw [k5]
      rcases Nat.eq_zero_or_pos k with hk | hk
      · subst hk
        rw [if_pos rfl, f4, if_neg (Nat.succ_ne_zero 0)]
        push_cast
        omega
      · rw [if_neg (by omega), if_neg (by omega), f3]
        push_cast
        omega

/-- A session with exactly `d` owed pulses, run `d` due ticks: emits exactly
`d` pulses, ends inactive, and snaps `PhysicalMinute` and the persisted copy
to the freshly re-sampled minute `r`. -/
theorem runCatchUp_full (r : Int) (d : Nat) :
    ∀ s : EngineState, 0 < d → s.catchupActive = true →
      s.catchupLastPulseMs < U32 → s.catchupIntervalMs < U32 →
      s.catchupRemaining = (d : Int) →
      (runCatchUp r d s).2 = d ∧
      (runCatchUp r d s).1.catchupActive = false ∧
      (runCatchUp r d s).1.lastImpulseMinutes = r ∧
      (runCatchUp r d s).1.persisted = r := by
  induction d with
  | zero =>
    intro s hd
    exact absurd hd (by norm_num)
  | succ d ih =>
    intro s _ h1 h2 h3 h4
    have hmm : (s.catchupLastPulseMs + s.catchupIntervalMs) % U32 % U32
        = (s.catchupLastPulseMs + s.catchupIntervalMs) % U32 :=
      Nat.mod_mod_of_dvd _ dvd_rfl
    have hdue : s.catchupLastPulseMs = 0 ∨
        s.catchupIntervalMs ≤
          sub32 ((s.catchupLastPulseMs + s.catchupIntervalMs) % U32) s.catchupLastPulseMs := by
      right
      rw [sub32_add_interval _ _ h2 h3]
    rcases Nat.eq_zero_or_pos d with hd0 | hdpos
    · subst hd0
      have hrem : s.catchupRemaining ≤ 1 := by
        rw [h4]
        norm_num
      have hstep := tickCatchUp_step_last ((s.catchupLastPulseMs + s.catchupIntervalMs) % U32)
        ((s.catchupLastPulseMs + s.catchupIntervalMs) % U32) r s h1 hdue hrem
      rw [hmm] at hstep
      simp [runCatchUp, hstep]
    · have hrem1 : 1 < s.catchupRemaining := by
        rw [h4]
        push_cast
        omega
      have hstep := tickCatchUp_step_mid ((s.catchupLastPulseMs + s.catchupIntervalMs) % U32)
        ((s.catchupLastPulseMs + s.catchupIntervalMs) % U32) r s h1 hdue hrem1
      rw [hmm] at hstep
      obtain ⟨s1, hs1⟩ : ∃ s1, tickCatchUp ((s.catchupLastPulseMs + s.catchupIntervalMs) % U32)
          ((s.catchupLastPulseMs + s.catchupIntervalMs) % U32) r s = (s1, 1) := ⟨_, hstep⟩
      have hrec := congrArg Prod.fst (hstep.symm.trans hs1)
      simp only [] at hrec
      have f1 : s1.catchupActive = true := by
        rw [← hrec]
        exact h1
      have f2 : s1.catchupRemaining = (d : Int) := by
        rw [← hrec]
        simp only []
        rw [h4]
        push_cast
        ring
      have f5 : s1.catchupLastPulseMs < U32 := by
        rw [← hrec]
        exact Nat.mod_lt _ (by norm_num [U32])
      have f6 : s1.catchupIntervalMs = s.catchupIntervalMs := by
        rw [← hrec]
      have key := ih s1 hdpos f1 f5 (f6 ▸ h3) f2
      obtain ⟨k1, k2, k3, k4⟩ := key
      simp only [runCatchUp, hs1]
      exact ⟨by omega, k2, k3, k4⟩

/-- C4: a catch-up session holding `remaining = d` pulses
(`0 < d ≤ maxCatchupMinutes`), driven until done, terminates after exactly
`d` accepted pulses: every earlier prefix of `k < d` pulses leaves the
session active with `remaining = d - k` and `PhysicalMinute` advanced by
exactly `k` single `+1 mod 1440` steps, each persisted; the `d`-th pulse
deactivates the session and snaps `PhysicalMinute` — and the persisted
copy — to the freshly re-sampled `now()` minute `r`, not the stale
pre-session value. -/
theorem catchup_session_terminates (cfg : Config) (r : Int) (d : Nat)
    (s : EngineState) (hd : 0 < d) (_hcap : (d : Int) ≤ cfg.maxCatchupMinutes)
    (hact : s.catchupActive = true) (hrem : s.catchupRemaining = (d : Int))
    (hlp : s.catchupLastPulseMs < U32) (hiv : s.catchupIntervalMs < U32)
    (hl0 : 0 ≤ s.lastImpulseMinutes) (hl1 : s.lastImpulseMinutes < 1440) :
    (runCatchUp r d s).2 = d ∧
    (runCatchUp r d s).1.catchupActive = false ∧
    (runCatchUp r d s).1.lastImpulseMinutes = r ∧
    (runCatchUp r d s).1.persisted = r ∧
    (∀ k : Nat, 0 < k → k < d →
      (runCatchUp r k s).2 = k ∧
      (runCatchUp r k s).1.catchupActive = true ∧
      (runCatchUp r k s).1.catchupRemaining = (d : Int) - k ∧
      (runCatchUp r k s).1.lastImpulseMinutes = (s.lastImpulseMinutes + k) % 1440 ∧
      (runCatchUp r k s).1.persisted = (s.lastImpulseMinutes + k) % 1440) := by
  obtain ⟨g1, g2, g3, g4⟩ := runCatchUp_full r d s hd hact hlp hiv hrem
  refine ⟨g1, g2, g3, g4, ?_⟩
  intro k hk0 hkd
  have hklt : (k : Int) < s.catchupRemaining := by
    rw [hrem]
    omega
  obtain ⟨m1, m2, m3, m4, m5, _, _⟩ := runCatchUp_mid r k s hact hlp hiv hl0 hl1 hklt
  refine ⟨m1, m2, ?_, m4, ?_⟩
  · rw [m3, hrem]
  · rw [m5, if_neg (by omega)]

theorem catchup_session_terminates_witness :
    (runCatchUp 7 7 catchupSessionState).2 = 7 ∧
    (runCatchUp 7 7 catchupSessionState).1.catchupActive = false ∧
    (runCatchUp 7 7 catchupSessionState).1.lastImpulseMinutes = 7 ∧
    (runCatchUp 7 7 catchupSessionState).1.persisted = 7 ∧
    (runCatchUp 7 3 catchupSessionState).2 = 3 ∧
    (runCatchUp 7 3 catchupSessionState).1.catchupActive = true ∧
    (runCatchUp 7 3 catchupSessionState).1.catchupRemaining = 4 ∧
    (runCatchUp 7 3 catchupSessionState).1.lastImpulseMinutes = 3 := by
  have h := catchup_session_terminates cfgDefault 7 7 catchupSessionState
    (by norm_num) (by norm_num [cfgDefault]) (by decide) (by decide)
    (by norm_num [catchupSessionState, U32]) (by norm_num [catchupSessionState, U32])
    (by decide) (by decide)
  have hp := h.2.2.2.2 3 (by norm_num) (by norm_num)
  refine ⟨h.1, h.2.1, h.2.2.1, h.2.2.2.1, hp.1, hp.2.1, ?_, ?_⟩
  · rw [hp.2.2.1]
    norm_num
  · rw [hp.2.2.2.1]
    decide

/-- `checkMinuteChange` either leaves the state untouched with no pulse
(same minute, active session, or guard-rejected pulse) or emits one pulse
and snaps `PhysicalMinute` (and the persisted copy) straight to `nowMin`. -/
theorem checkMinuteChange_cases (nowMin : Int) (nowMs doneMs : Nat)
    (s : EngineState) :
    checkMinuteChange nowMin nowMs doneMs s = (s, 0) ∨
    checkMinuteChange nowMin nowMs doneMs s =
      ({ s with pulse := { s.pulse with lastWasA := !s.pulse.lastWasA,
                                        lastTrigMs := doneMs % U32 },
                lastImpulseMinutes := nowMin, persisted := nowMin }, 1) := by
  by_cases hc : s.catchupActive
  · left
    simp [checkMinuteChange, hc]
  · by_cases hchg : nowMin ≠ s.lastImpulseMinutes
    · by_cases hrej : sub32 nowMs s.pulse.lastTrigMs < requiredGap s.pulse
      · left
        have heq : triggerPulse s.pulse false nowMs doneMs = (false, none, s.pulse) := by
          simp [triggerPulse, hrej]
        simp [checkMinuteChange, hc, hchg, heq]
      · right
        have heq : triggerPulse s.pulse false nowMs doneMs =
            (true, some (if s.pulse.lastWasA then Polarity.B else Polarity.A),
             { s.pulse with lastWasA := !s.pulse.lastWasA, lastTrigMs := doneMs % U32 }) := by
          unfold triggerPulse
          rw [if_neg (by simpa using hrej)]
        simp [checkMinuteChange, hc, hchg, heq]
    · left
      simp [checkMinuteChange, hc, hchg]

/-- C1 counterexample: an Idle-state tick that reads minute 5 while
`PhysicalMinute = 0` — a forward difference of 5, strictly between 1 and
the default cap 180 — does not enter `CatchingUp`: the tick emits a single
pulse and snaps `PhysicalMinute` directly to `nowMinute = 5`. -/
theorem idle_tick_snaps_instead_of_catchup :
    cexIdleState.catchupActive = false ∧
    1 < diffForwardMinutes cexIdleState.lastImpulseMinutes 5 ∧
    diffForwardMinutes cexIdleState.lastImpulseMinutes 5 ≤ cfgDefault.maxCatchupMinutes ∧
    (loopTick 5 100000 100350 5 cexIdleState).1.catchupActive = false ∧
    (loopTick 5 100000 100350 5 cexIdleState).1.lastImpulseMinutes = 5 ∧
    (loopTick 5 100000 100350 5 cexIdleState).2 = 1 := by
  decide

/-- C1 amended: in the Idle state the per-tick path never transitions to
`CatchingUp` — an accepted pulse snaps `PhysicalMinute` directly to
`nowMinute`, otherwise the tick is a strict no-op. The transition to
`CatchingUp` with `remaining = forwardDiff` (leaving `PhysicalMinute`
untouched) happens only through `tryStartCatchUp`, i.e. at boot, after an
NTP-resync correction, or on a manual set, when
`0 < forwardDiff ≤ maxCatchupMinutes`; once a session runs, each accepted
catch-up pulse advances `PhysicalMinute` by exactly one step modulo 1440. -/
theorem idle_tick_and_catchup_start (cfg : Config) (nowMin : Int)
    (nowMs doneMs : Nat) (resampleMin : Int) (s : EngineState)
    (hidle : s.catchupActive = false) :
    ((loopTick nowMin nowMs doneMs resampleMin s).1.catchupActive = false ∧
     ((loopTick nowMin nowMs doneMs resampleMin s).1.lastImpulseMinutes = nowMin ∨
      (loopTick nowMin nowMs doneMs resampleMin s).1 = s)) ∧
    (0 < diffForwardMinutes s.lastImpulseMinutes nowMin →
     diffForwardMinutes s.lastImpulseMinutes nowMin ≤ cfg.maxCatchupMinutes →
     tryStartCatchUp cfg nowMin s =
       (startCatchUp cfg (diffForwardMinutes s.lastImpulseMinutes nowMin) s, false)) ∧
    (∀ s2 : EngineState, s2.catchupActive = true → 1 < s2.catchupRemaining →
     (s2.catchupLastPulseMs = 0 ∨
       s2.catchupIntervalMs ≤ sub32 nowMs s2.catchupLastPulseMs) →
     (tickCatchUp nowMs doneMs resampleMin s2).1.lastImpulseMinutes =
       (s2.lastImpulseMinutes + 1).tmod 1440) := by
  refine ⟨?_, ?_, ?_⟩
  · rcases checkMinuteChange_cases nowMin nowMs doneMs s with hcm | hcm
    · have := tickCatchUp_inactive nowMs doneMs resampleMin s hidle
      simp [loopTick, hcm, this]
      simp [hidle]
    · have hact2 : ({ s with pulse := { s.pulse with lastWasA := !s.pulse.lastWasA,
                                                     lastTrigMs := doneMs % U32 },
                             lastImpulseMinutes := nowMin,
                             persisted := nowMin } : EngineState).catchupActive = false := hidle
      have := tickCatchUp_inactive nowMs doneMs resampleMin _ hact2
      simp [loopTick, hcm, this]
      exact hidle
  · intro hpos hcap
    have hne : diffForwardMinutes s.lastImpulseMinutes nowMin ≠ 0 := by omega
    have hnlt : ¬(cfg.maxCatchupMinutes < diffForwardMinutes s.lastImpulseMinutes nowMin) := by
      omega
    simp [tryStartCatchUp, hidle, hne, hnlt]
  · intro s2 hact2 hrem2 hdue2
    rw [tickCatchUp_step_mid nowMs doneMs resampleMin s2 hact2 hdue2 hrem2]

theorem idle_tick_and_catchup_start_witness :
    ((loopTick 5 100000 100350 5 cexIdleState).1.catchupActive = false ∧
     ((loopTick 5 100000 100350 5 cexIdleState).1.lastImpulseMinutes = 5 ∨
      (loopTick 5 100000 100350 5 cexIdleState).1 = cexIdleState)) ∧
    tryStartCatchUp cfgDefault 7 cexIdleState =
      (startCatchUp cfgDefault (diffForwardMinutes cexIdleState.lastImpulseMinutes 7)
        cexIdleState, false) ∧
    (tickCatchUp 100000 100350 5 catchupSessionState).1.lastImpulseMinutes =
      (catchupSessionState.lastImpulseMinutes + 1).tmod 1440 := by
  have h := idle_tick_and_catchup_start cfgDefault 5 100000 100350 5 cexIdleState (by decide)
  have h2 := idle_tick_and_catchup_start cfgDefault 7 100000 100350 5 cexIdleState (by decide)
  exact ⟨h.1, h2.2.1 (by decide) (by decide),
    h.2.2 catchupSessionState (by decide) (by decide) (Or.inl (by decide))⟩

end Pragotron
